import Mathlib

/-!
Verification of the column-mapping / data-transformation core of the
spreadsheet converter (source: `src/services/geminiService.ts`).

The embedding models:
* the Table data model (`ExcelData`, cells are string / number / null);
* the projection engine `transformData`;
* the mapping-inference client `analyzeExcelWithAI` (prompt construction,
  credential short-circuit, transport / parse outcome handling, the
  `/\x7b[\s\S]*\x7d/` greedy JSON-span extraction, and `JSON.parse`);
* the template operation `generateExcelTemplate` with its try/catch
  structure made explicit.

JavaScript-specific conventions captured by the embedding:
* `undefined` from out-of-range array indexing and JSON `null` are both
  modelled as `Cell.null` (the source's cell type is `string|number|null`);
* object lookup `m[k]` is modelled as `Option String`; the falsy test
  `if (!x)` on an optional string holds for both "absent" and `""`;
* `Array.prototype.join` renders `null` as the empty string;
* numeric cells are modelled with integer payloads - no claim depends on
  floating-point rendering;
* `JSON.parse` is modelled by a fuel-indexed recursive-descent decoder
  over the JSON grammar; numbers keep their lexeme (their numeric value
  is never inspected by the program);
* an `async` function's outcome is a value for resolution; for
  `generateExcelTemplate` the body is modelled as `Except` so that the
  internally thrown errors and the surrounding catch are explicit.
-/

/-- A spreadsheet cell: the source type is `string | number | null`.
Out-of-range indexing (JS `undefined`) is collapsed into `Cell.null`. -/
inductive Cell where
  | str : String → Cell
  | num : Int → Cell
  | null : Cell
deriving DecidableEq, Repr

/-- The Table model (`ExcelData` in the source): header row, data rows,
sheet identifier. -/
structure ExcelData where
  headers : List String
  rows : List (List Cell)
  sheetName : String
deriving DecidableEq, Repr

/-- The projection engine (`transformData`, geminiService.ts lines 320-340).

```
const transformedRows = data.rows.map((row) => {
  return outputHeaders.map((header) => {
    const sourceHeader = columnMapping[header];
    if (!sourceHeader) return null;
    const sourceIndex = data.headers.indexOf(sourceHeader);
    return sourceIndex >= 0 ? row[sourceIndex] : null;
  });
});
return { headers: outputHeaders, rows: transformedRows, sheetName: data.sheetName };
```

`columnMapping[header]` is `Option String`; the JS falsy test `!sourceHeader`
holds for `none` and for `some ""`; `indexOf` is the first index of an
exactly-equal header, `-1` (here `none`) when absent; `row[sourceIndex]`
past the row's end is `undefined`, collapsed to `Cell.null`. -/
def transformData (data : ExcelData) (columnMapping : String → Option String)
    (outputHeaders : List String) : ExcelData :=
  { headers := outputHeaders
    rows := data.rows.map (fun row =>
      outputHeaders.map (fun header =>
        match columnMapping header with
        | none => Cell.null
        | some sourceHeader =>
          if sourceHeader = "" then Cell.null
          else
            match data.headers.findIdx? (fun h => h == sourceHeader) with
            | none => Cell.null
            | some sourceIndex => row.getD sourceIndex Cell.null))
    sheetName := data.sheetName }

/-- The identity column mapping over a given header list: every header
name present in the list is mapped to itself. -/
def idMapping (hs : List String) : String → Option String :=
  fun n => if n ∈ hs then some n else none

/-- A JSON value as produced by `JSON.parse`. Numbers keep their source
lexeme: the program never inspects a numeric value, only passes decoded
objects through. -/
inductive Json where
  | null : Json
  | bool : Bool → Json
  | num : String → Json
  | str : String → Json
  | arr : List Json → Json
  | obj : List (String × Json) → Json
deriving Repr

/-- JSON whitespace (the four characters `JSON.parse` skips). -/
def isJsonWs (c : Char) : Bool :=
  c == ' ' || c == '\n' || c == '\r' || c == '\t'

/-- Drop leading JSON whitespace. -/
def skipWs (cs : List Char) : List Char := cs.dropWhile isJsonWs

/-- Value of one hexadecimal digit. -/
def hexVal (c : Char) : Option Nat :=
  if '0' ≤ c ∧ c ≤ '9' then some (c.toNat - '0'.toNat)
  else if 'a' ≤ c ∧ c ≤ 'f' then some (c.toNat - 'a'.toNat + 10)
  else if 'A' ≤ c ∧ c ≤ 'F' then some (c.toNat - 'A'.toNat + 10)
  else none

/-- Body of a JSON string literal, after the opening quote: consume up to
the closing quote, handling the escape sequences `JSON.parse` accepts,
rejecting raw control characters. Returns the decoded string and the
remaining input. -/
def parseStringBody (acc : List Char) : List Char → Option (String × List Char)
  | [] => none
  | c :: rest =>
    if c == '\x22' then some (String.mk acc.reverse, rest)
    else if c == '\x5c' then
      match rest with
      | [] => none
      | e :: rest2 =>
        if e == '\x22' then parseStringBody ('\x22' :: acc) rest2
        else if e == '\x5c' then parseStringBody ('\x5c' :: acc) rest2
        else if e == '/' then parseStringBody ('/' :: acc) rest2
        else if e == 'b' then parseStringBody ('\x08' :: acc) rest2
        else if e == 'f' then parseStringBody ('\x0c' :: acc) rest2
        else if e == 'n' then parseStringBody ('\n' :: acc) rest2
        else if e == 'r' then parseStringBody ('\x0d' :: acc) rest2
        else if e == 't' then parseStringBody ('\t' :: acc) rest2
        else if e == 'u' then
          match rest2 with
          | h1 :: h2 :: h3 :: h4 :: rest3 =>
            match hexVal h1, hexVal h2, hexVal h3, hexVal h4 with
            | some a, some b, some c2, some d =>
              parseStringBody (Char.ofNat (((a * 16 + b) * 16 + c2) * 16 + d) :: acc) rest3
            | _, _, _, _ => none
          | _ => none
        else none
    else if c.toNat < 32 then none
    else parseStringBody (c :: acc) rest

/-- Lexeme of a JSON number (grammar: optional minus, integer part,
optional fraction, optional exponent). Returns the lexeme characters and
the remaining input. -/
def parseNumberLex (cs : List Char) : Option (List Char × List Char) :=
  let (sign, cs1) := match cs with
    | '-' :: r => (['-'], r)
    | _ => (([] : List Char), cs)
  match cs1 with
  | [] => none
  | d :: r =>
    if !d.isDigit then none
    else
      let (ipart, rest1) :=
        if d == '0' then (['0'], r)
        else (d :: r.takeWhile Char.isDigit, r.dropWhile Char.isDigit)
      let fracStep : Option (List Char × List Char) :=
        match rest1 with
        | '.' :: r2 =>
          let ds := r2.takeWhile Char.isDigit
          if ds = [] then none else some ('.' :: ds, r2.dropWhile Char.isDigit)
        | _ => some ([], rest1)
      match fracStep with
      | none => none
      | some (fpart, rest2) =>
        let expStep : Option (List Char × List Char) :=
          match rest2 with
          | e :: r3 =>
            if e == 'e' || e == 'E' then
              let (es, r4) := match r3 with
                | '+' :: r4 => (['+'], r4)
                | '-' :: r4 => (['-'], r4)
                | _ => (([] : List Char), r3)
              let ds := r4.takeWhile Char.isDigit
              if ds = [] then none else some (e :: (es ++ ds), r4.dropWhile Char.isDigit)
            else some ([], rest2)
          | [] => some ([], rest2)
        match expStep with
        | none => none
        | some (epart, rest3) => some (sign ++ ipart ++ fpart ++ epart, rest3)

mutual

/-- Recursive-descent JSON value parser (fuel-indexed; every recursive
call follows the consumption of at least one input character, so fuel
`input length + 2` suffices). -/
def parseValue : Nat → List Char → Option (Json × List Char)
  | 0, _ => none
  | Nat.succ fuel, cs =>
    match skipWs cs with
    | [] => none
    | c :: rest =>
      if c == '\x7b' then
        match skipWs rest with
        | '\x7d' :: r2 => some (Json.obj [], r2)
        | _ =>
          match parseMembers fuel rest with
          | some (fields, r2) => some (Json.obj fields, r2)
          | none => none
      else if c == '[' then
        match skipWs rest with
        | ']' :: r2 => some (Json.arr [], r2)
        | _ =>
          match parseElements fuel rest with
          | some (elems, r2) => some (Json.arr elems, r2)
          | none => none
      else if c == '\x22' then
        match parseStringBody [] rest with
        | some (s, r2) => some (Json.str s, r2)
        | none => none
      else if c == 't' then
        match rest with
        | 'r' :: 'u' :: 'e' :: r2 => some (Json.bool true, r2)
        | _ => none
      else if c == 'f' then
        match rest with
        | 'a' :: 'l' :: 's' :: 'e' :: r2 => some (Json.bool false, r2)
        | _ => none
      else if c == 'n' then
        match rest with
        | 'u' :: 'l' :: 'l' :: r2 => some (Json.null, r2)
        | _ => none
      else if c == '-' || c.isDigit then
        match parseNumberLex (c :: rest) with
        | some (lex, r2) => some (Json.num (String.mk lex), r2)
        | none => none
      else none

/-- Members of a JSON object, from just after the opening brace (the
empty-object case is handled by `parseValue`); consumes through the
closing brace. -/
def parseMembers : Nat → List Char → Option (List (String × Json) × List Char)
  | 0, _ => none
  | Nat.succ fuel, cs =>
    match skipWs cs with
    | '\x22' :: r1 =>
      match parseStringBody [] r1 with
      | some (key, r2) =>
        (match skipWs r2 with
         | ':' :: r3 =>
           match parseValue fuel r3 with
           | some (v, r4) =>
             (match skipWs r4 with
              | ',' :: r5 =>
                (match parseMembers fuel r5 with
                 | some (fields, r6) => some ((key, v) :: fields, r6)
                 | none => none)
              | '\x7d' :: r5 => some ([(key, v)], r5)
              | _ => none)
           | none => none
         | _ => none)
      | none => none
    | _ => none

/-- Elements of a JSON array, from just after the opening bracket (the
empty-array case is handled by `parseValue`); consumes through the
closing bracket. -/
def parseElements : Nat → List Char → Option (List Json × List Char)
  | 0, _ => none
  | Nat.succ fuel, cs =>
    match parseValue fuel cs with
    | some (v, r1) =>
      (match skipWs r1 with
       | ',' :: r2 =>
         (match parseElements fuel r2 with
          | some (elems, r3) => some (v :: elems, r3)
          | none => none)
       | ']' :: r2 => some ([v], r2)
       | _ => none)
    | none => none

end

/-- `JSON.parse`: decode a whole string as one JSON value (leading and
trailing JSON whitespace allowed, nothing else may remain); `none` models
the thrown `SyntaxError`. -/
def Json.parse (s : String) : Option Json :=
  let cs := s.toList
  match parseValue (cs.length + 2) cs with
  | some (v, rest) => if skipWs rest = [] then some v else none
  | none => none

/-- Property read `o[key]` on a decoded JSON value: `none` when the value
is not an object or lacks the key. With duplicate keys `JSON.parse`
keeps the last occurrence, hence the reversed search. -/
def Json.getField (j : Json) (key : String) : Option Json :=
  match j with
  | Json.obj fields => (fields.reverse.find? (fun p => p.1 == key)).map (fun p => p.2)
  | _ => none

/-- `text.match(/\x7b[\s\S]*\x7d/)`, i.e. the greedy JSON-span scan: the
regex matches from the first opening brace that has a closing brace
somewhere after it, through the last closing brace of the text. Rendered
as the scan the engine performs: skip up to the first opening brace, then
trim everything after the last closing brace; no match when either brace
is missing (in particular any closing brace of a nonempty result lies
strictly after the leading opening brace, so the span has length at
least two). -/
def jsonMatch (txt : String) : Option String :=
  let s1 := txt.toList.dropWhile (fun c => !(c == '\x7b'))
  match s1 with
  | [] => none
  | _ :: _ =>
    match (s1.reverse.dropWhile (fun c => !(c == '\x7d'))).reverse with
    | [] => none
    | c :: cs => some (String.mk (c :: cs))

/-- The degraded result `\x7b columnMapping: \x7b\x7d, suggestions: [msg] \x7d`
that `analyzeExcelWithAI` returns on every error path. -/
def errResult (msg : String) : Json :=
  Json.obj [("columnMapping", Json.obj []), ("suggestions", Json.arr [Json.str msg])]

/-- JS truthiness of an optional string (`undefined` and `""` are falsy). -/
def jsTruthy (o : Option String) : Bool :=
  match o with
  | none => false
  | some s => !(s == "")

/-- JS `x || d` on an optional string: the default replaces both an
absent and an empty value. -/
def jsOrElse (o : Option String) (d : String) : String :=
  match o with
  | none => d
  | some s => if s == "" then d else s

/-- Outcome of the `fetch` round trip, as observed by the service code:
either the awaited `fetch`/`response.json()` rejected (`fetchError`, the
payload being the rendered message of the thrown value, with
`알 수 없는 오류` standing in for a non-`Error` throw), or a response
arrived carrying `response.ok`, `response.statusText`, the parsed body's
`error?.message`, and the parsed body's
`candidates?.[0]?.content?.parts?.[0]?.text`. -/
inductive FetchResult where
  | fetchError : String → FetchResult
  | response : Bool → String → Option String → Option String → FetchResult
deriving DecidableEq, Repr

/-- JS `Array.prototype.join` rendering of one cell (`null` joins as the
empty string, numbers via decimal rendering). -/
def jsCellToString (c : Cell) : String :=
  match c with
  | Cell.str s => s
  | Cell.num n => toString n
  | Cell.null => ""

/-- The sample block of the analysis prompt: the first three rows, each
rendered `row.join(' | ')`, joined by newlines
(`sampleData.slice(0, 3).map((row) => row.join(' | ')).join('\n')`). -/
def renderSample (sampleData : List (List Cell)) : String :=
  String.intercalate "\n"
    ((sampleData.take 3).map (fun row => String.intercalate " | " (row.map jsCellToString)))

/-- The prompt `analyzeExcelWithAI` sends (geminiService.ts lines 25-44):
the template literal with the headers joined by `", "`, the first-three-
rows sample block, and the target description interpolated. -/
def analyzePrompt (headers : List String) (sampleData : List (List Cell))
    (targetFormat : String) : String :=
  "\n엑셀 데이터를 분석해주세요.\n\n현재 헤더: " ++ String.intercalate ", " headers
    ++ "\n샘플 데이터 (처음 3행):\n" ++ renderSample sampleData
    ++ "\n\n목표 서식: " ++ targetFormat
    ++ "\n\n다음 형식의 JSON으로 응답해주세요:\n\x7b\n  \"columnMapping\": \x7b\n    \"목표컬럼명1\": \"현재컬럼명1\",\n    \"목표컬럼명2\": \"현재컬럼명2\"\n  \x7d,\n  \"suggestions\": [\"제안1\", \"제안2\"]\n\x7d\n\n컬럼 매핑과 데이터 변환에 대한 제안을 포함해주세요.\n"

/-- The step `JSON.parse(jsonMatch[0])` guarded by the inner try/catch of
`analyzeExcelWithAI`: the decoded value is returned verbatim (no shape
validation); a decode failure degrades to the parse-failure result. -/
def jsonToResult (m : String) : Json :=
  match Json.parse m with
  | some v => v
  | none => errResult "AI 응답을 파싱할 수 없습니다."

/-- The mapping-inference client `analyzeExcelWithAI` (geminiService.ts
lines 14-95). `apiKey` models the module-level `GEMINI_API_KEY`; the
falsy test short-circuits before any network activity. The `fetch`
outcome is an input, since the network is external; `headers`,
`sampleData` and `targetFormat` feed only the prompt (see
`analyzePrompt`). All throw sites (`fetch`, `response.json()`,
`JSON.parse`) are caught inside the function, so its promise always
resolves; the resolved value is the returned JSON object. -/
def analyzeExcelWithAI (apiKey : Option String) (headers : List String)
    (sampleData : List (List Cell)) (targetFormat : String)
    (outcome : FetchResult) : Json :=
  if jsTruthy apiKey = false then errResult "API 키가 설정되지 않았습니다."
  else
    match outcome with
    | FetchResult.fetchError msg => errResult ("AI 분석 중 오류: " ++ msg)
    | FetchResult.response ok statusText errMsg textField =>
      if ok = false then errResult ("API 오류: " ++ jsOrElse errMsg statusText)
      else
        let text := textField.getD ""
        if text == "" then errResult "AI 응답이 비어있습니다."
        else
          match jsonMatch text with
          | some m => jsonToResult m
          | none => errResult "AI 응답을 파싱할 수 없습니다."

/-- The empty template result `\x7b headers: [], sampleRow: [] \x7d`. -/
def templateEmpty : Json :=
  Json.obj [("headers", Json.arr []), ("sampleRow", Json.arr [])]

/-- The try-block of `generateExcelTemplate` (geminiService.ts lines
114-142): `Except.error` marks a throw escaping the block - the
explicit `throw new Error('템플릿 생성 요청 실패')` on a non-ok response,
a rejected `fetch`/`response.json()`, or an unguarded `JSON.parse`
failure (whose `SyntaxError` message is provider-internal; only the fact
that it throws is observable, since the catch ignores the message). A
text with no JSON-shaped span returns the empty template directly. -/
def generateTemplateBody (outcome : FetchResult) : Except String Json :=
  match outcome with
  | FetchResult.fetchError msg => Except.error msg
  | FetchResult.response ok _statusText _errMsg textField =>
    if ok = false then Except.error "템플릿 생성 요청 실패"
    else
      let text := textField.getD ""
      match jsonMatch text with
      | some m =>
        match Json.parse m with
        | some v => Except.ok v
        | none => Except.error "SyntaxError"
      | none => Except.ok templateEmpty

/-- The template operation `generateExcelTemplate` (geminiService.ts
lines 97-147): the whole try-block sits inside a catch that converts any
escaped throw into the resolved empty template, so the promise always
resolves (`Except.error` at this level - a rejection reaching the caller
- never occurs). Note the function performs no API-key check. -/
def generateExcelTemplate (outcome : FetchResult) : Except String Json :=
  match generateTemplateBody outcome with
  | Except.ok v => Except.ok v
  | Except.error _ => Except.ok templateEmpty

/-- The error-path outcomes of the mapping-analysis operation: missing
credential, network error, non-success HTTP status, empty text payload,
no JSON-shaped substring, JSON decode failure. -/
def ErrorPath (apiKey : Option String) (outcome : FetchResult) : Prop :=
  jsTruthy apiKey = false
  ∨ (∃ msg, outcome = FetchResult.fetchError msg)
  ∨ (∃ st em tf, outcome = FetchResult.response false st em tf)
  ∨ (∃ st em tf, outcome = FetchResult.response true st em tf ∧ tf.getD "" = "")
  ∨ (∃ st em tf, outcome = FetchResult.response true st em tf ∧ tf.getD "" ≠ ""
      ∧ jsonMatch (tf.getD "") = none)
  ∨ (∃ st em tf m, outcome = FetchResult.response true st em tf ∧ tf.getD "" ≠ ""
      ∧ jsonMatch (tf.getD "") = some m ∧ Json.parse m = none)

/-- The text contains at least one opening brace with a closing brace
somewhere after it. -/
def ContainsBracePair (txt : String) : Prop :=
  ∃ a mid b, txt.toList = a ++ '\x7b' :: (mid ++ '\x7d' :: b)

/-- The end-to-end example table of the specification: headers
`성명, 부서`, one row `김철수, 개발팀`. -/
def exTable : ExcelData :=
  { headers := ["성명", "부서"]
    rows := [[Cell.str "김철수", Cell.str "개발팀"]]
    sheetName := "Sheet1" }

/-- The example mapping `이름 → 성명, 팀 → 부서`. -/
def exMapping : String → Option String :=
  fun n => if n = "이름" then some "성명" else if n = "팀" then some "부서" else none

/-- The specification's extraction example: prose around one embedded
JSON object. -/
def exampleText : String :=
  "Here is the result: \x7b\"columnMapping\":\x7b\"Name\":\"성명\"\x7d,\"suggestions\":[]\x7d Thanks."

/-- `getD` through `map` below the length. -/
theorem getD_map_lt {α β : Type} (f : α → β) :
    ∀ (l : List α) (i : Nat) (d : β) (d' : α), i < l.length →
      (l.map f).getD i d = f (l.getD i d')
  | [], i, _, _, h => absurd h (by simp)
  | _ :: _, 0, _, _, _ => rfl
  | _ :: t, Nat.succ i, d, d', h =>
    getD_map_lt f t i d d' (Nat.lt_of_succ_lt_succ h)

/-- In a duplicate-free list, the first index holding `l[j]` is `j`. -/
theorem findIdx?_nodup_getElem {l : List String} (hnd : l.Nodup) :
    ∀ (j : Nat) (hj : j < l.length), l.findIdx? (fun h => h == l[j]) = some j := by
  induction l with
  | nil => intro j hj; simp at hj
  | cons x t ih =>
    intro j hj
    cases j with
    | zero => simp [List.findIdx?_cons]
    | succ j =>
      have hxt : x ∉ t := (List.nodup_cons.mp hnd).1
      have hjt : j < t.length := Nat.lt_of_succ_lt_succ hj
      have hmem : t[j] ∈ t := List.getElem_mem hjt
      have hne : (x == t[j]) = false := by
        simp only [beq_eq_false_iff_ne, ne_eq]
        intro hcontra
        exact hxt (hcontra ▸ hmem)
      have := ih (List.nodup_cons.mp hnd).2 j hjt
      simp only [List.findIdx?_cons, List.getElem_cons_succ, hne, if_false,
        List.findIdx?_succ, this, Option.map_some']
      rfl

/-- Scanning a list past everything that is not `ch` lands on the first
occurrence of `ch`: the prefix that was skipped is `ch`-free, and the
tail extends the originally exhibited tail. -/
theorem dropWhile_first_occ (ch : Char) :
    ∀ (a rest : List Char), ∃ a2 t,
      a ++ ch :: rest = a2 ++ ch :: t ∧ ch ∉ a2 ∧
      (a ++ ch :: rest).dropWhile (fun c => !(c == ch)) = ch :: t ∧ rest <:+ t := by
  intro a
  induction a with
  | nil =>
    intro rest
    refine ⟨[], rest, rfl, by simp, ?_, List.suffix_refl rest⟩
    simp [List.dropWhile_cons]
  | cons c a ih =>
    intro rest
    by_cases hc : c = ch
    · subst hc
      refine ⟨[], a ++ c :: rest, by simp, by simp, ?_, ⟨a ++ [c], by simp⟩⟩
      simp [List.dropWhile_cons]
    · obtain ⟨a2, t, heq, hnin, hdrop, hsuf⟩ := ih rest
      refine ⟨c :: a2, t, by simpa using heq, ?_, ?_, hsuf⟩
      · simp only [List.mem_cons, not_or]
        exact ⟨fun hcontra => hc hcontra.symm, hnin⟩
      · have hpc : (fun x => !(x == ch)) c = true := by simp [hc]
        simpa [List.dropWhile_cons, hpc] using hdrop

/-- The greedy JSON-span scan picks out exactly the substring running
from the leftmost opening brace to the rightmost closing brace: whenever
the text contains an opening brace with a closing brace after it, the
match is the span `'\x7b' :: v ++ ['\x7d']` such that no opening brace
precedes it and no closing brace follows it in the text. -/
theorem jsonMatch_braceSpan (txt : String) (h : ContainsBracePair txt) :
    ∃ a v b, jsonMatch txt = some (String.mk ('\x7b' :: v ++ ['\x7d'])) ∧
      txt.toList = a ++ ('\x7b' :: v ++ ['\x7d']) ++ b ∧ '\x7b' ∉ a ∧ '\x7d' ∉ b := by
  obtain ⟨a0, mid, b0, hcs⟩ := h
  obtain ⟨a2, t, heq1, hnin1, hdrop1, hsuf1⟩ :=
    dropWhile_first_occ '\x7b' a0 (mid ++ '\x7d' :: b0)
  have hs1 : txt.toList.dropWhile (fun c => !(c == '\x7b')) = '\x7b' :: t := by
    rw [hcs]; exact hdrop1
  have hcseq : txt.toList = a2 ++ '\x7b' :: t := by rw [hcs]; exact heq1
  have hmem : '\x7d' ∈ t := hsuf1.subset (by simp)
  have hmemrev : '\x7d' ∈ ('\x7b' :: t).reverse := by simp [hmem]
  obtain ⟨α, ρ, hαρ⟩ := List.append_of_mem hmemrev
  obtain ⟨α2, t2, heq2, hnin2, hdrop2, _⟩ := dropWhile_first_occ '\x7d' α ρ
  have hdrop2' : ('\x7b' :: t).reverse.dropWhile (fun c => !(c == '\x7d')) = '\x7d' :: t2 := by
    rw [hαρ]; exact hdrop2
  have hrev : ('\x7b' :: t).reverse = α2 ++ '\x7d' :: t2 := by rw [hαρ]; exact heq2
  have hs1eq : '\x7b' :: t = t2.reverse ++ '\x7d' :: α2.reverse := by
    have h2 := congrArg List.reverse hrev
    simpa using h2
  cases hw : t2.reverse with
  | nil =>
    rw [hw] at hs1eq
    simp only [List.nil_append, List.cons.injEq] at hs1eq
    exact absurd hs1eq.1 (by decide)
  | cons c w =>
    rw [hw] at hs1eq
    simp only [List.cons_append, List.cons.injEq] at hs1eq
    obtain ⟨hcbrace, ht⟩ := hs1eq
    refine ⟨a2, w, α2.reverse, ?_, ?_, hnin1, by simpa using hnin2⟩
    · simp only [jsonMatch, hs1]
      rw [hdrop2']
      simp only [List.reverse_cons, hw]
      simp [← hcbrace]
    · rw [hcseq, ht]
      simp

/-- A string whose left part is nonempty stays nonempty under append. -/
theorem append_ne_empty_left (s t : String) (h : s ≠ "") : s ++ t ≠ "" := by
  intro hc
  apply h
  have hl := congrArg String.length hc
  rw [String.length_append] at hl
  have h0 : ("" : String).length = 0 := rfl
  rw [h0] at hl
  have hs : s.length = 0 := by omega
  cases s with
  | mk data =>
    cases data with
    | nil => rfl
    | cons c cs => simp [String.length, List.length] at hs

/-- C8: `project(T, empty mapping, empty outputHeaders)` yields empty
headers and one empty row per source row (row count preserved, every
output row of length zero), the sheet name untouched. -/
theorem transformData_empty_spec (data : ExcelData) :
    (transformData data (fun _ => none) []).headers = [] ∧
    (transformData data (fun _ => none) []).rows
      = data.rows.map (fun _ => ([] : List Cell)) ∧
    (transformData data (fun _ => none) []).rows.length = data.rows.length := by
  refine ⟨rfl, ?_, by simp [transformData]⟩
  simp [transformData]

/-- C10: the projection carries the source sheet identifier over
unchanged, for every mapping and output header list. -/
theorem transformData_preserves_sheetName (data : ExcelData)
    (columnMapping : String → Option String) (outputHeaders : List String) :
    (transformData data columnMapping outputHeaders).sheetName = data.sheetName := rfl

/-- C1 (counterexample): the claim's per-cell description omits the falsy
treatment of an empty-string mapping value. With source header `""`,
row `[x]`, mapping every output name to `""`: the claim's formula finds
`""` at header index 0 and predicts the cell `x`, but the code returns
`null`. -/
theorem transformData_c1_counterexample :
    ¬ (∀ (data : ExcelData) (m : String → Option String) (out : List String),
        (transformData data m out).rows.length = data.rows.length ∧
        ∀ i j, i < data.rows.length → j < out.length →
          ((transformData data m out).rows.getD i []).getD j Cell.null =
            (match m (out.getD j "") with
             | none => Cell.null
             | some s =>
               match data.headers.findIdx? (fun h => h == s) with
               | none => Cell.null
               | some k => (data.rows.getD i []).getD k Cell.null)) := by
  intro hall
  have h := (hall ⟨[""], [[Cell.str "x"]], "S"⟩ (fun _ => some "") ["A"]).2 0 0
    (by decide) (by decide)
  exact absurd h (by decide)

/-- C1 (amended): the projection preserves the row count, and each output
cell `(i, j)` is: null when the mapping gives nothing - or the empty
string - for output header `j`; otherwise the source row's value at the
first source-header index exactly equal to the mapped name, null when no
such header exists or the row is shorter than that index. -/
theorem transformData_c1_cells (data : ExcelData) (m : String → Option String)
    (out : List String) :
    (transformData data m out).rows.length = data.rows.length ∧
    ∀ i j, i < data.rows.length → j < out.length →
      ((transformData data m out).rows.getD i []).getD j Cell.null =
        (match m (out.getD j "") with
         | none => Cell.null
         | some s =>
           if s = "" then Cell.null
           else
             match data.headers.findIdx? (fun h => h == s) with
             | none => Cell.null
             | some k => (data.rows.getD i []).getD k Cell.null) := by
  constructor
  · simp [transformData]
  · intro i j hi hj
    simp only [transformData]
    rw [getD_map_lt _ data.rows i ([] : List Cell) ([] : List Cell) hi,
      getD_map_lt _ out j Cell.null "" hj]

/-- C1 (witness): the specification's end-to-end example, cell (0, 0):
output header `이름` maps to `성명`, found at source index 0, so the cell
is `김철수`. -/
theorem transformData_c1_cells_witness :
    ((transformData exTable exMapping ["이름", "팀"]).rows.getD 0 []).getD 0 Cell.null
      = Cell.str "김철수" := by
  have h := (transformData_c1_cells exTable exMapping ["이름", "팀"]).2 0 0
    (by decide) (by decide)
  rw [h]
  rfl

/-- C9: a mapping entry whose value is the empty string behaves like an
absent entry - the whole output column is null - even when `""` occurs
among the source headers, because the lookup result goes through a JS
falsy test rather than a presence test. -/
theorem transformData_empty_string_value (data : ExcelData) (m : String → Option String)
    (out : List String) (i j : Nat) (hi : i < data.rows.length) (hj : j < out.length)
    (hmap : m (out.getD j "") = some "") :
    ((transformData data m out).rows.getD i []).getD j Cell.null = Cell.null := by
  simp only [transformData]
  rw [getD_map_lt _ data.rows i ([] : List Cell) ([] : List Cell) hi,
    getD_map_lt _ out j Cell.null "" hj]
  simp only [hmap]
  simp

/-- C9 (witness): source headers `[""]`, row `[x]`, every output name
mapped to `""`: the output cell is null although `""` is a real source
header holding `x`. -/
theorem transformData_empty_string_value_witness :
    ((transformData ⟨[""], [[Cell.str "x"]], "S"⟩ (fun _ => some "")
        ["A"]).rows.getD 0 []).getD 0 Cell.null = Cell.null :=
  transformData_empty_string_value ⟨[""], [[Cell.str "x"]], "S"⟩ (fun _ => some "")
    ["A"] 0 0 (by decide) (by decide) rfl

/-- C4 (counterexample): the identity mapping does not round-trip every
Table. With duplicated headers `["a", "a"]` and row `[x, y]`, both output
columns read from the first occurrence, producing `[x, x]`. -/
theorem transformData_identity_counterexample :
    ¬ (∀ (data : ExcelData),
        (transformData data (idMapping data.headers) data.headers).rows = data.rows) := by
  intro hall
  have h := hall ⟨["a", "a"], [[Cell.str "x", Cell.str "y"]], "S"⟩
  exact absurd h (by decide)

/-- C4 (amended): for a Table whose headers are pairwise distinct and
nonempty and whose rows each have exactly one cell per header, projecting
through the identity mapping over its own headers reproduces the rows
exactly (and keeps the headers). -/
theorem transformData_identity_roundtrip (data : ExcelData)
    (hnd : data.headers.Nodup)
    (hne : ∀ h ∈ data.headers, h ≠ "")
    (hlen : ∀ r ∈ data.rows, r.length = data.headers.length) :
    (transformData data (idMapping data.headers) data.headers).rows = data.rows ∧
    (transformData data (idMapping data.headers) data.headers).headers = data.headers := by
  refine ⟨?_, rfl⟩
  simp only [transformData]
  apply List.ext_getElem
  · simp
  · intro i hi1 hi2
    rw [List.getElem_map]
    have hrmem : data.rows[i] ∈ data.rows := List.getElem_mem hi2
    apply List.ext_getElem
    · simp [hlen _ hrmem]
    · intro j hj1 hj2
      have hjh : j < data.headers.length := by simpa using hj1
      rw [List.getElem_map]
      have hhmem : data.headers[j] ∈ data.headers := List.getElem_mem hjh
      have h1 : idMapping data.headers (data.headers[j]) = some (data.headers[j]) := by
        simp [idMapping, hhmem]
      have h3 := findIdx?_nodup_getElem hnd j hjh
      simp only [h1, h3, hne _ hhmem, if_false]
      simp [List.getD_eq_getElem?_getD, List.getElem?_eq_getElem hj2]

/-- C4 (witness): the identity round-trip on the specification's example
table. -/
theorem transformData_identity_roundtrip_witness :
    (transformData exTable (idMapping exTable.headers) exTable.headers).rows
      = exTable.rows :=
  (transformData_identity_roundtrip exTable (by decide) (by decide) (by decide)).1

/-- C6: with no API key configured, the analysis returns the
configuration-error result at once, for every input and every would-be
network outcome - the result does not depend on the fetch outcome, so no
network call is consulted. -/
theorem analyzeExcelWithAI_missing_key (headers : List String)
    (sampleData : List (List Cell)) (targetFormat : String) (outcome : FetchResult) :
    analyzeExcelWithAI none headers sampleData targetFormat outcome
      = errResult "API 키가 설정되지 않았습니다." := rfl

/-- C7 (counterexample): on a non-success HTTP status the template
operation does not reject - its internal throw is caught by its own
catch block and the promise resolves with the empty template. -/
theorem generateExcelTemplate_c7_counterexample :
    ¬ (generateExcelTemplate (FetchResult.response false "Bad Gateway" none none)
        = Except.error "템플릿 생성 요청 실패") ∧
    generateExcelTemplate (FetchResult.response false "Bad Gateway" none none)
      = Except.ok templateEmpty := by
  exact ⟨fun h => Except.noConfusion h, rfl⟩

/-- C7 (amended): on transport failure (non-success HTTP status) the
try-block of `generateExcelTemplate` does throw, but the function's own
catch converts it, so the caller always receives a resolved empty
template `\x7b headers: [], sampleRow: [] \x7d` - the operation degrades
like `analyzeExcelWithAI`, only without a diagnostic message. -/
theorem generateExcelTemplate_degrades (st : String) (em tf : Option String) :
    generateTemplateBody (FetchResult.response false st em tf)
      = Except.error "템플릿 생성 요청 실패" ∧
    generateExcelTemplate (FetchResult.response false st em tf)
      = Except.ok templateEmpty := by
  exact ⟨rfl, rfl⟩

/-- C2: on every listed error-path outcome (missing credential, network
error, non-success HTTP status, empty text payload, no JSON-shaped
substring, JSON decode failure) the analysis resolves - never rejects,
all throw sites being caught inside the function - with the well-shaped
degraded result: an empty column mapping and a single nonempty
human-readable suggestion. -/
theorem analyzeExcelWithAI_error_paths (apiKey : Option String) (headers : List String)
    (sampleData : List (List Cell)) (targetFormat : String) (outcome : FetchResult)
    (h : ErrorPath apiKey outcome) :
    ∃ msg, analyzeExcelWithAI apiKey headers sampleData targetFormat outcome
      = errResult msg ∧ msg ≠ "" := by
  by_cases hk : jsTruthy apiKey = false
  · exact ⟨"API 키가 설정되지 않았습니다.", by simp [analyzeExcelWithAI, hk], by decide⟩
  · have hk' : jsTruthy apiKey = true := by
      revert hk; cases jsTruthy apiKey <;> simp
    rcases h with h | ⟨msg, rfl⟩ | ⟨st, em, tf, rfl⟩ | ⟨st, em, tf, rfl, htf⟩
      | ⟨st, em, tf, rfl, hne, hnm⟩ | ⟨st, em, tf, m, rfl, hne, hm, hp⟩
    · exact absurd h hk
    · refine ⟨"AI 분석 중 오류: " ++ msg, by simp [analyzeExcelWithAI, hk'], ?_⟩
      exact append_ne_empty_left _ _ (by decide)
    · refine ⟨"API 오류: " ++ jsOrElse em st, by simp [analyzeExcelWithAI, hk'], ?_⟩
      exact append_ne_empty_left _ _ (by decide)
    · refine ⟨"AI 응답이 비어있습니다.", ?_, by decide⟩
      have htf' : (tf.getD "" == "") = true := by simp [htf]
      simp [analyzeExcelWithAI, hk', htf']
    · refine ⟨"AI 응답을 파싱할 수 없습니다.", ?_, by decide⟩
      have hne' : (tf.getD "" == "") = false := by simp [hne]
      simp [analyzeExcelWithAI, hk', hne', hnm]
    · refine ⟨"AI 응답을 파싱할 수 없습니다.", ?_, by decide⟩
      have hne' : (tf.getD "" == "") = false := by simp [hne]
      simp [analyzeExcelWithAI, jsonToResult, hk', hne', hm, hp]

/-- C2 (witness): a successful transport whose text payload has no
JSON-shaped substring degrades to the empty mapping plus a diagnostic. -/
theorem analyzeExcelWithAI_error_paths_witness :
    ∃ msg, analyzeExcelWithAI (some "key") [] [] ""
        (FetchResult.response true "OK" none (some "no json here"))
      = errResult msg ∧ msg ≠ "" :=
  analyzeExcelWithAI_error_paths (some "key") [] [] ""
    (FetchResult.response true "OK" none (some "no json here"))
    (Or.inr (Or.inr (Or.inr (Or.inr (Or.inl
      ⟨"OK", none, some "no json here", rfl, by decide, by decide⟩)))))

/-- C3: whenever the text payload is nonempty and contains an opening
brace with a closing brace after it, the analysis decodes exactly the
span from the leftmost opening brace to the rightmost closing brace
(first conjunct: the scan's result is that span; second conjunct: the
analysis result is the decode of the scanned span); on the
specification's example - prose around one embedded JSON object - the
decoded column mapping is `Name → 성명`. -/
theorem analyzeExcelWithAI_extraction :
    (∀ txt, ContainsBracePair txt → ∃ a v b,
        jsonMatch txt = some (String.mk ('\x7b' :: v ++ ['\x7d'])) ∧
        txt.toList = a ++ ('\x7b' :: v ++ ['\x7d']) ++ b ∧ '\x7b' ∉ a ∧ '\x7d' ∉ b) ∧
    (∀ (apiKey : Option String) (headers : List String) (sampleData : List (List Cell))
        (targetFormat st : String) (em : Option String) (txt m : String),
        jsTruthy apiKey = true → txt ≠ "" → jsonMatch txt = some m →
        analyzeExcelWithAI apiKey headers sampleData targetFormat
          (FetchResult.response true st em (some txt)) = jsonToResult m) ∧
    Json.getField (analyzeExcelWithAI (some "key") [] [] ""
        (FetchResult.response true "OK" none (some exampleText))) "columnMapping"
      = some (Json.obj [("Name", Json.str "성명")]) := by
  refine ⟨fun txt h => jsonMatch_braceSpan txt h, ?_, rfl⟩
  intro apiKey headers sampleData targetFormat st em txt m hk hne hm
  have hne' : (txt == "") = false := by simp [hne]
  simp [analyzeExcelWithAI, hk, hne', hm]

/-- C3 (witness): on the specification's example text the analysis
returns the decode of the span from its leftmost opening brace to its
rightmost closing brace. -/
theorem analyzeExcelWithAI_extraction_witness :
    analyzeExcelWithAI (some "key") [] [] ""
        (FetchResult.response true "OK" none (some exampleText))
      = jsonToResult "\x7b\"columnMapping\":\x7b\"Name\":\"성명\"\x7d,\"suggestions\":[]\x7d" :=
  analyzeExcelWithAI_extraction.2.1 (some "key") [] [] "" "OK" none exampleText
    "\x7b\"columnMapping\":\x7b\"Name\":\"성명\"\x7d,\"suggestions\":[]\x7d"
    rfl (by decide) rfl

/-- C5: the prompt depends only on the first three sample rows - it is
unchanged when the sample data is truncated to three rows, so no later
row ever reaches the inference step - and the rendered first-three-rows
block does occur verbatim inside the prompt. -/
theorem analyzePrompt_truncates_sample (headers : List String)
    (sampleData : List (List Cell)) (targetFormat : String) :
    analyzePrompt headers sampleData targetFormat
      = analyzePrompt headers (sampleData.take 3) targetFormat ∧
    (renderSample sampleData).toList
      <:+: (analyzePrompt headers sampleData targetFormat).toList := by
  constructor
  · simp [analyzePrompt, renderSample, List.take_take]
  · refine ⟨("\n엑셀 데이터를 분석해주세요.\n\n현재 헤더: "
        ++ String.intercalate ", " headers ++ "\n샘플 데이터 (처음 3행):\n").toList,
      ("\n\n목표 서식: " ++ targetFormat
        ++ "\n\n다음 형식의 JSON으로 응답해주세요:\n\x7b\n  \"columnMapping\": \x7b\n    \"목표컬럼명1\": \"현재컬럼명1\",\n    \"목표컬럼명2\": \"현재컬럼명2\"\n  \x7d,\n  \"suggestions\": [\"제안1\", \"제안2\"]\n\x7d\n\n컬럼 매핑과 데이터 변환에 대한 제안을 포함해주세요.\n").toList, ?_⟩
    simp [analyzePrompt, List.append_assoc]
